import Mathlib

/-!
Shallow embedding of `src/app/api/socket/route.ts` (edge websocket chat hub).

The module-level mutable state of the route is
  `const connections = new Map<string, Connection>()` and
  `let history: ChatMessage[] = []`.
JavaScript arrays are heap objects: `history = [...history, message]` and
`history = history.slice(-200)` allocate fresh arrays and rebind the
variable, leaving every previously handed-out array untouched.  We model
the array heap explicitly (`Store.arrays` is the list of every array ever
allocated, `Store.historyRef` the index the `history` binding currently
points at), so that claims about snapshot immutability are about the model
and not about Lean's value semantics.
-/

namespace ChatRoute

/-- The `ChatMessage` record of the source (id, text, alias, color, sentAt).
The `alias` field is called `aliasName` here because `alias` is a reserved
word in this Lean environment. -/
structure ChatMessage where
  id : String
  text : String
  aliasName : String
  color : String
  sentAt : String
deriving DecidableEq

/-- The heap of chat-message arrays plus the index the mutable `history`
binding currently refers to. -/
structure Store where
  arrays : List (List ChatMessage)
  historyRef : Nat
deriving DecidableEq

/-- `let history: ChatMessage[] = []` : one empty array allocated, `history`
points at it. -/
def emptyStore : Store := ⟨[[]], 0⟩

/-- Read the array stored at heap reference `r` (empty for a dangling
reference, which never occurs for references the program created). -/
def derefA (arrays : List (List ChatMessage)) (r : Nat) : List ChatMessage :=
  arrays[r]?.getD []

/-- Dereference inside a store. -/
def Store.deref (s : Store) (r : Nat) : List ChatMessage :=
  derefA s.arrays r

/-- The array the `history` binding currently points at. -/
def currentHistory (s : Store) : List ChatMessage :=
  s.deref s.historyRef

/-- List-level content of `pruneHistory` (lines 45-49):
`if (history.length > 200) history = history.slice(-200)`.
`slice(-200)` is the suffix of the last 200 elements. -/
def pruneList (l : List ChatMessage) : List ChatMessage :=
  if l.length > 200 then l.drop (l.length - 200) else l

/-- `pruneHistory()` on the store: when the current array is longer than 200,
allocate a fresh array holding its last 200 entries (`slice` copies) and
rebind `history`; otherwise leave the store alone. -/
def pruneStore (s : Store) : Store :=
  let h := currentHistory s
  if h.length > 200 then ⟨s.arrays ++ [h.drop (h.length - 200)], s.arrays.length⟩
  else s

/-- Lines 107-108: `history = [...history, message]; pruneHistory()`.
The spread allocates a fresh array; the old array is never mutated. -/
def appendMessage (s : Store) (m : ChatMessage) : Store :=
  let appended := currentHistory s ++ [m]
  pruneStore ⟨s.arrays ++ [appended], s.arrays.length⟩

theorem pruneList_eq_drop (l : List ChatMessage) :
    pruneList l = l.drop (l.length - 200) := by
  unfold pruneList
  by_cases h : l.length > 200
  · simp [h]
  · have h0 : l.length - 200 = 0 := by omega
    simp [h, h0]

theorem length_pruneList_le (l : List ChatMessage) :
    (pruneList l).length ≤ 200 := by
  rw [pruneList_eq_drop]
  simp only [List.length_drop]
  omega

theorem derefA_concat_self (l : List (List ChatMessage)) (a : List ChatMessage) :
    derefA (l ++ [a]) l.length = a := by
  simp [derefA, List.getElem?_concat_length]

theorem derefA_append_left (l l₂ : List (List ChatMessage)) (r : Nat)
    (h : r < l.length) : derefA (l ++ l₂) r = derefA l r := by
  unfold derefA
  rw [List.getElem?_append_left h]

theorem currentHistory_appendMessage (s : Store) (m : ChatMessage) :
    currentHistory (appendMessage s m) = pruneList (currentHistory s ++ [m]) := by
  have hmid : ∀ (arr : List (List ChatMessage)) (app : List ChatMessage),
      currentHistory ⟨arr ++ [app], arr.length⟩ = app := by
    intro arr app
    show derefA (arr ++ [app]) arr.length = app
    exact derefA_concat_self arr app
  show currentHistory (pruneStore ⟨s.arrays ++ [currentHistory s ++ [m]], s.arrays.length⟩)
      = pruneList (currentHistory s ++ [m])
  unfold pruneStore pruneList
  rw [hmid]
  by_cases h : (currentHistory s ++ [m]).length > 200
  · simp only [if_pos h]
    exact hmid _ _
  · simp only [if_neg h]
    exact hmid _ _

theorem arrays_length_le_appendMessage (s : Store) (m : ChatMessage) :
    s.arrays.length ≤ (appendMessage s m).arrays.length := by
  unfold appendMessage pruneStore
  dsimp only
  split
  · simp
  · simp

theorem deref_appendMessage_frozen (s : Store) (m : ChatMessage) (r : Nat)
    (h : r < s.arrays.length) :
    (appendMessage s m).deref r = s.deref r := by
  unfold appendMessage pruneStore
  dsimp only
  split
  · show derefA ((s.arrays ++ _) ++ _) r = _
    rw [derefA_append_left _ _ r (by simp; omega), derefA_append_left _ _ r h]
    rfl
  · show derefA (s.arrays ++ _) r = _
    rw [derefA_append_left _ _ r h]
    rfl

theorem deref_foldl_frozen (msgs : List ChatMessage) (s : Store) (r : Nat)
    (h : r < s.arrays.length) :
    (msgs.foldl appendMessage s).deref r = s.deref r := by
  induction msgs generalizing s with
  | nil => rfl
  | cons m ms ih =>
      simp only [List.foldl_cons]
      rw [ih (appendMessage s m) (lt_of_lt_of_le h (arrays_length_le_appendMessage s m))]
      exact deref_appendMessage_frozen s m r h

theorem currentHistory_foldl (msgs : List ChatMessage) (s : Store) :
    currentHistory (msgs.foldl appendMessage s) =
      msgs.foldl (fun h m => pruneList (h ++ [m])) (currentHistory s) := by
  induction msgs generalizing s with
  | nil => rfl
  | cons m ms ih =>
      simp only [List.foldl_cons]
      rw [ih, currentHistory_appendMessage]

theorem drop_prune_drop (l r : List ChatMessage) :
    (l.drop (l.length - 200) ++ r).drop ((l.drop (l.length - 200) ++ r).length - 200) =
      (l ++ r).drop ((l ++ r).length - 200) := by
  have hk : l.length - 200 ≤ l.length := by omega
  rw [← List.drop_append_of_le_length hk, List.drop_drop]
  have harith : l.length - 200 + (((l ++ r).drop (l.length - 200)).length - 200)
      = (l ++ r).length - 200 := by
    simp only [List.length_drop, List.length_append]
    omega
  rw [harith]

theorem foldl_pruneAppend (msgs : List ChatMessage) (acc : List ChatMessage)
    (h : acc.length ≤ 200) :
    msgs.foldl (fun h m => pruneList (h ++ [m])) acc =
      (acc ++ msgs).drop ((acc ++ msgs).length - 200) := by
  induction msgs generalizing acc with
  | nil =>
      have h0 : acc.length - 200 = 0 := by omega
      simp [h0]
  | cons m ms ih =>
      simp only [List.foldl_cons]
      rw [ih (pruneList (acc ++ [m])) (length_pruneList_le _)]
      rw [pruneList_eq_drop]
      rw [drop_prune_drop (acc ++ [m]) ms]
      simp only [List.append_assoc, List.singleton_append]

/-- A registered connection (lines 18-21).  The websocket handle is
represented by the connection id: a send on the socket is recorded as a
`Send` targeting that id. -/
structure Connection where
  id : String
deriving DecidableEq

/-- The three JSON envelopes the server ever sends (lines 42, 66-69, 110). -/
inductive ServerEvent where
  | history (messages : List ChatMessage)
  | message (message : ChatMessage)
  | presence (count : Nat)
deriving DecidableEq

/-- The string stored in the `type` field of each serialized envelope. -/
def eventType : ServerEvent → String
  | .history _ => "history"
  | .message _ => "message"
  | .presence _ => "presence"

def isPresence : ServerEvent → Bool
  | .presence _ => true
  | _ => false

/-- Whether an event carries one of the three wire event types. -/
def goodType (e : ServerEvent) : Bool :=
  eventType e == "history" || eventType e == "message" || eventType e == "presence"

/-- One attempted socket send: which connection it targets and the event. -/
structure Send where
  target : String
  event : ServerEvent
deriving DecidableEq

/-- The module-level mutable state: `connections` (a `Map`, iterated in
insertion order) and `history`. -/
structure ServerState where
  connections : List Connection
  store : Store
deriving DecidableEq

/-- `connections.set(id, connection)`: replace in place when the key exists,
otherwise append (JS `Map` preserves insertion order). -/
def setConn (conns : List Connection) (c : Connection) : List Connection :=
  if conns.any (fun x => x.id == c.id) then
    conns.map (fun x => if x.id == c.id then c else x)
  else conns ++ [c]

/-- `connections.delete(id)`: remove the entry with that key, a no-op when
absent.  Keys are unique (`Map`), so filtering is exact. -/
def deleteConn (conns : List Connection) (i : String) : List Connection :=
  conns.filter (fun c => c.id != i)

/-- Recipient view of `broadcast(data)` with no `exclude` option — the only
way the source ever calls it (lines 42 and 110): one send of the event to
every registered connection, in registry order. -/
def broadcastSends (conns : List Connection) (e : ServerEvent) : List Send :=
  conns.map (fun c => ⟨c.id, e⟩)

/-- `registerPresence()` (lines 41-43): broadcast a presence event whose
count is `connections.size` at the moment of emission, with no exclusion. -/
def registerPresenceSends (conns : List Connection) : List Send :=
  broadcastSends conns (.presence conns.length)

/-- The parsed `ClientMessage` shape (lines 3-8).  Fields that are absent in
the JSON are `none`.  Field values of non-string JSON type are not modelled:
the route throws on them before constructing a message (`.trim` / `?.slice`
on a non-string), so they never produce an accepted message, and none of the
verified properties quantifies over them. -/
structure ClientMessage where
  mtype : Option String
  mtext : Option String
  malias : Option String
  mcolor : Option String
deriving DecidableEq

/-- Outcome of receiving one websocket `message` event (lines 77-97):
either the data is not a string, or `JSON.parse` throws, or it yields the
JSON value `null`, or it yields an object with the modelled fields. -/
inductive Inbound where
  | binary
  | malformed
  | nullPayload
  | payload (m : ClientMessage)
deriving DecidableEq

/-- JS `s.slice(0, n)`: the first `n` characters of `s`. -/
def sliceStr (s : String) (n : Nat) : String :=
  String.mk (s.data.take n)

/-- Drop leading whitespace from a character list. -/
def dropWhileWs : List Char → List Char
  | [] => []
  | c :: rest => if c.isWhitespace then dropWhileWs rest else c :: rest

/-- JS `s.trim()`: remove leading and trailing whitespace. -/
def trimStr (s : String) : String :=
  String.mk ((dropWhileWs (dropWhileWs s.data).reverse).reverse)

/-- Lines 99-105: the `ChatMessage` constructed for an accepted inbound
message.  `x?.slice(0, k) || fallback` falls back exactly when the field is
absent or the sliced string is empty. -/
def mkChatMessage (m : ClientMessage) (freshId now : String) : ChatMessage :=
  { id := freshId
    text := sliceStr (trimStr (m.mtext.getD "")) 480
    aliasName :=
      match m.malias with
      | some a => if sliceStr a 48 = "" then "Anonymous" else sliceStr a 48
      | none => "Anonymous"
    color :=
      match m.mcolor with
      | some c =>
          if sliceStr c 64 = "" then "bg-slate-100 text-slate-900" else sliceStr c 64
      | none => "bg-slate-100 text-slate-900"
    sentAt := now }

/-- Result of one handler invocation: the new module state, the socket sends
it attempted (in order), the `console.error` log lines, and the error it
threw, if any. -/
structure StepOut where
  state : ServerState
  sends : List Send
  logs : List String
  err : Option String
deriving DecidableEq

/-- The websocket `message` listener (lines 77-111).  Non-string data and
parse failures return early (the latter after logging).  `JSON.parse` can
also return `null` (inbound text `"null"`), in which case `data.type`
throws a `TypeError` that nothing catches.  Otherwise the guard
`data.type !== "message" || !data.text` and the trimmed-emptiness check
discard silently; an accepted message is appended (then pruned) and
broadcast to every connection with no exclusion.  `freshId` stands for
`crypto.randomUUID()` and `now` for `new Date().toISOString()`. -/
def handleMessage (st : ServerState) (d : Inbound) (freshId now : String) : StepOut :=
  match d with
  | .binary => ⟨st, [], [], none⟩
  | .malformed => ⟨st, [], ["Invalid payload"], none⟩
  | .nullPayload => ⟨st, [], [], some "TypeError"⟩
  | .payload m =>
      if m.mtype ≠ some "message" ∨ m.mtext.getD "" = "" then ⟨st, [], [], none⟩
      else if trimStr (m.mtext.getD "") = "" then ⟨st, [], [], none⟩
      else
        let msg := mkChatMessage m freshId now
        ⟨⟨st.connections, appendMessage st.store msg⟩,
          broadcastSends st.connections (.message msg), [], none⟩

/-- The accept path of `GET` (lines 56-75): assign the fresh connection id,
`connections.set` (line 62), then try to send the history snapshot to the
new socket (failure is caught and logged, lines 64-73), then
`registerPresence()` (line 75).  `historySendFails` says whether the
history send throws. -/
def connect (st : ServerState) (connectionId : String) (historySendFails : Bool) :
    StepOut :=
  let conns' := setConn st.connections ⟨connectionId⟩
  ⟨⟨conns', st.store⟩,
    ⟨connectionId, .history (currentHistory st.store)⟩ :: registerPresenceSends conns',
    if historySendFails then ["Failed to send history"] else [],
    none⟩

/-- The `cleanup` closure (lines 113-116), registered for both the `close`
and the `error` event: `connections.delete(connectionId)` then
`registerPresence()` — the presence broadcast happens whether or not the id
was still present. -/
def cleanup (st : ServerState) (connectionId : String) : StepOut :=
  let conns' := deleteConn st.connections connectionId
  ⟨⟨conns', st.store⟩, registerPresenceSends conns', [], none⟩

/-- The externally triggered handler invocations: a websocket accept, an
inbound `message` event, and a `close`/`error` event firing `cleanup`. -/
inductive Input where
  | connect (connectionId : String) (historySendFails : Bool)
  | inbound (d : Inbound) (freshId now : String)
  | disconnect (connectionId : String)
deriving DecidableEq

/-- One handler invocation on the shared module state. -/
def step (st : ServerState) : Input → StepOut
  | .connect cid f => connect st cid f
  | .inbound d i n => handleMessage st d i n
  | .disconnect cid => cleanup st cid

/-- The individually ordered operations of the accept path, for claims about
their order. -/
inductive Action where
  | assignId (id : String)
  | register (id : String)
  | sendHistory (target : String) (messages : List ChatMessage)
  | announce (count : Nat)
deriving DecidableEq

/-- Order of operations in `GET` (lines 56-75): line 57 assigns the id,
line 62 registers the connection, lines 64-73 attempt the history send,
line 75 announces presence (with the post-registration size). -/
def connectActions (st : ServerState) (connectionId : String) : List Action :=
  [ .assignId connectionId,
    .register connectionId,
    .sendHistory connectionId (currentHistory st.store),
    .announce (setConn st.connections ⟨connectionId⟩).length ]

/-- The presence events among a list of sends. -/
def presenceOnly (l : List Send) : List Send :=
  l.filter (fun s => isPresence s.event)

/-- One send attempt of the full `broadcast` model: the targeted connection,
the exact string handed to `socket.send`, and whether the send succeeded
(`false` records a caught-and-logged throw). -/
structure SendAttempt where
  target : String
  payload : String
  delivered : Bool
deriving DecidableEq

/-- `connection.socket.send(payload)` (line 34): throws for the connections
the failure oracle `sendFails` marks as broken. -/
def trySendPayload (sendFails : String → Bool) (cid : String) (_payload : String) :
    Except String Unit :=
  if sendFails cid then Except.error "Broadcast failed" else Except.ok ()

/-- Truthiness of `options?.exclude && connection.id === options.exclude`
(line 29): the exclude id must be present, nonempty (a JS empty string is
falsy) and equal to the connection id. -/
def excludeMatches (ex : Option String) (cid : String) : Bool :=
  match ex with
  | some e => !(e == "") && cid == e
  | none => false

/-- The for-loop of `broadcast` (lines 28-38), given the already-serialized
payload: skip an excluded connection, otherwise attempt the send with the
throw caught per iteration (lines 33-37) so that later connections are
still attempted; an uncaught throw would surface as `Except.error`. -/
def broadcastGo (payload : String) (ex : Option String) (sendFails : String → Bool) :
    List Connection → Except String (List SendAttempt)
  | [] => Except.ok []
  | c :: rest =>
      let attempt : List SendAttempt :=
        if excludeMatches ex c.id then []
        else
          match trySendPayload sendFails c.id payload with
          | Except.ok _ => [⟨c.id, payload, true⟩]
          | Except.error _ => [⟨c.id, payload, false⟩]
      match broadcastGo payload ex sendFails rest with
      | Except.ok acc => Except.ok (attempt ++ acc)
      | Except.error e => Except.error e

/-- `broadcast(data, options)` (lines 26-39): `JSON.stringify(data)` is
evaluated once (line 27, modelled by the abstract serializer `stringify`)
and that single string is what every iteration of the loop sends. -/
def broadcastRun (stringify : ServerEvent → String) (data : ServerEvent)
    (ex : Option String) (sendFails : String → Bool) (conns : List Connection) :
    Except String (List SendAttempt) :=
  broadcastGo (stringify data) ex sendFails conns

theorem excludeMatches_eq_beq (ex : Option String) (cid : String) (h : cid ≠ "") :
    excludeMatches ex cid = (ex == some cid) := by
  cases ex with
  | none => rfl
  | some e =>
      simp only [excludeMatches]
      by_cases he : cid = e
      · subst he
        simp [h]
      · have h1 : (cid == e) = false := by simp [he]
        have h2 : (e == cid) = false := by simp [Ne.symm he]
        simp [h1, h2]

theorem broadcastGo_ok (payload : String) (ex : Option String)
    (sendFails : String → Bool) (conns : List Connection)
    (hid : ∀ c ∈ conns, c.id ≠ "") :
    broadcastGo payload ex sendFails conns
      = Except.ok ((conns.filter (fun c => ex != some c.id)).map
          (fun c => ⟨c.id, payload, !sendFails c.id⟩)) := by
  induction conns with
  | nil => rfl
  | cons c rest ih =>
      have hc : c.id ≠ "" := hid c (by simp)
      have hrest : ∀ x ∈ rest, x.id ≠ "" := fun x hx => hid x (by simp [hx])
      simp only [broadcastGo, ih hrest]
      rw [excludeMatches_eq_beq ex c.id hc]
      by_cases hx : ex = some c.id
      · simp [hx, List.filter_cons]
      · have hb : (ex == some c.id) = false := by
          simp [hx]
        simp only [hb, List.filter_cons, bne, hb, Bool.not_false, if_true, if_false,
          Bool.false_eq_true]
        unfold trySendPayload
        by_cases hf : sendFails c.id
        · simp [hf, List.map_cons]
        · simp [hf, List.map_cons]

theorem presenceOnly_broadcast_message (conns : List Connection) (m : ChatMessage) :
    presenceOnly (broadcastSends conns (.message m)) = [] := by
  simp [presenceOnly, broadcastSends, isPresence]

theorem presenceOnly_broadcast_presence (conns : List Connection) (k : Nat) :
    presenceOnly (broadcastSends conns (.presence k))
      = broadcastSends conns (.presence k) := by
  simp [presenceOnly, broadcastSends, isPresence]

theorem presenceOnly_registerPresence (conns : List Connection) :
    presenceOnly (registerPresenceSends conns) = registerPresenceSends conns :=
  presenceOnly_broadcast_presence conns conns.length

theorem sliceStr_ne_empty (s : String) (k : Nat) (hs : s ≠ "") (hk : k ≠ 0) :
    sliceStr s k ≠ "" := by
  intro h
  have htake : s.data.take k = [] := congrArg String.data h
  rcases List.take_eq_nil_iff.mp htake with h0 | hnil
  · exact hk h0
  · apply hs
    cases s with
    | mk l =>
        have hl : l = [] := hnil
        rw [hl]

/-! ## The claims -/

/-- C1: for every sequence of accepted inbound chat messages, after each
append-and-trim the message store holds at most 200 messages, and the
retained entries are exactly the most recently appended 200 (all of them
when fewer), in their original append order: the current history is the
length-200 suffix of the full append sequence.  Quantifying over all append
sequences covers the state after each individual append. -/
theorem history_bounded_most_recent (msgs : List ChatMessage) :
    (currentHistory (msgs.foldl appendMessage emptyStore)).length ≤ 200
    ∧ currentHistory (msgs.foldl appendMessage emptyStore)
        = msgs.drop (msgs.length - 200) := by
  have h1 : currentHistory (msgs.foldl appendMessage emptyStore)
      = msgs.drop (msgs.length - 200) := by
    rw [currentHistory_foldl]
    have hch : currentHistory emptyStore = [] := rfl
    rw [hch, foldl_pruneAppend msgs [] (by simp)]
    simp
  refine ⟨?_, h1⟩
  rw [h1]
  simp only [List.length_drop]
  omega

/-- C2: `broadcast` serializes the payload once and attempts to send that
identical string to every registered connection except the one matching the
optional exclude id; a throwing send is caught per iteration, delivery is
still attempted to all remaining connections (the attempt list does not
depend on which sends fail), and broadcast never throws to its caller (the
result is always `Except.ok`).  The hypothesis that registered connection
ids are nonempty reflects that they are produced by `crypto.randomUUID()`. -/
theorem broadcast_once_covers_all_catches (stringify : ServerEvent → String)
    (data : ServerEvent) (ex : Option String) (sendFails : String → Bool)
    (conns : List Connection) (hid : ∀ c ∈ conns, c.id ≠ "") :
    broadcastRun stringify data ex sendFails conns
      = Except.ok ((conns.filter (fun c => ex != some c.id)).map
          (fun c => ⟨c.id, stringify data, !sendFails c.id⟩)) :=
  broadcastGo_ok (stringify data) ex sendFails conns hid

/-- Witness for C2 at a concrete registry: three connections, the send to
`b` throws, `c` is excluded; both `a` and `b` are attempted with the same
serialized string and the call returns normally. -/
theorem broadcast_once_covers_all_catches_witness :
    broadcastRun eventType (.presence 2) (some "c") (fun s => s == "b")
        [⟨"a"⟩, ⟨"b"⟩, ⟨"c"⟩]
      = Except.ok ((([⟨"a"⟩, ⟨"b"⟩, ⟨"c"⟩] : List Connection).filter
            (fun c => (some "c" : Option String) != some c.id)).map
          (fun c => ⟨c.id, eventType (.presence 2), !(c.id == "b")⟩)) :=
  broadcast_once_covers_all_catches eventType (.presence 2) (some "c")
    (fun s => s == "b") [⟨"a"⟩, ⟨"b"⟩, ⟨"c"⟩] (by decide)

/-- C3: a presence event is broadcast to all connections with no exclusion
and with count equal to the registry size at the moment of emission, after
every register (connect) and after every cleanup-triggered deregister
(close or error), and no presence event is emitted for any inbound data
event (in particular not for chat messages). -/
theorem presence_on_membership_change_only (st : ServerState) (cid : String)
    (f : Bool) (d : Inbound) (i n : String) :
    presenceOnly ((step st (.connect cid f)).sends)
        = registerPresenceSends (setConn st.connections ⟨cid⟩)
    ∧ presenceOnly ((step st (.disconnect cid)).sends)
        = registerPresenceSends (deleteConn st.connections cid)
    ∧ presenceOnly ((step st (.inbound d i n)).sends) = [] := by
  refine ⟨?_, ?_, ?_⟩
  · have hs : (step st (.connect cid f)).sends
        = ⟨cid, .history (currentHistory st.store)⟩
            :: registerPresenceSends (setConn st.connections ⟨cid⟩) := rfl
    rw [hs]
    have hh : presenceOnly (⟨cid, .history (currentHistory st.store)⟩
          :: registerPresenceSends (setConn st.connections ⟨cid⟩))
        = presenceOnly (registerPresenceSends (setConn st.connections ⟨cid⟩)) := by
      simp [presenceOnly, List.filter_cons, isPresence]
    rw [hh, presenceOnly_registerPresence]
  · have hs : (step st (.disconnect cid)).sends
        = registerPresenceSends (deleteConn st.connections cid) := rfl
    rw [hs, presenceOnly_registerPresence]
  · cases d with
    | binary => rfl
    | malformed => rfl
    | nullPayload => rfl
    | payload m =>
        show presenceOnly ((handleMessage st (.payload m) i n).sends) = []
        simp only [handleMessage]
        by_cases h1 : (m.mtype ≠ some "message" ∨ m.mtext.getD "" = "")
        · rw [if_pos h1]
          rfl
        · rw [if_neg h1]
          by_cases h2 : trimStr (m.mtext.getD "") = ""
          · rw [if_pos h2]
            rfl
          · rw [if_neg h2]
            exact presenceOnly_broadcast_message _ _

/-- C4 counterexample: the claim orders the accept path as assign id, send
history, register, announce; on an empty registry the actual trace
registers before sending history, so the claimed trace is not the actual
one. -/
theorem connect_order_claim_counterexample :
    connectActions ⟨[], emptyStore⟩ "a"
      ≠ [.assignId "a", .sendHistory "a" [], .register "a", .announce 1] := by
  decide

/-- C4 amended: on accept the handler assigns the fresh id, registers the
connection in the registry, then attempts to send the history event
carrying the store snapshot, then announces presence; a history send
failure only adds a log line — the resulting state, sends and absence of an
error are identical whether or not the history send fails. -/
theorem connect_order_actual (st : ServerState) (cid : String) (f : Bool) :
    connectActions st cid
      = [.assignId cid, .register cid,
          .sendHistory cid (currentHistory st.store),
          .announce (setConn st.connections ⟨cid⟩).length]
    ∧ (connect st cid f).state = (connect st cid true).state
    ∧ (connect st cid f).sends = (connect st cid true).sends
    ∧ (connect st cid f).sends
        = ⟨cid, .history (currentHistory st.store)⟩
            :: registerPresenceSends (setConn st.connections ⟨cid⟩)
    ∧ (connect st cid f).err = none :=
  ⟨rfl, rfl, rfl, rfl, rfl⟩

/-- C5 counterexample: with connections `a` and `b`, disconnecting `a`
twice (close and error both fire `cleanup`) emits a presence event on the
second, redundant deregistration as well — the claim says the second
disconnect emits no presence event. -/
theorem double_disconnect_counterexample :
    presenceOnly ((step (step ⟨[⟨"a"⟩, ⟨"b"⟩], emptyStore⟩
        (.disconnect "a")).state (.disconnect "a")).sends) ≠ [] := by
  decide

/-- C5 amended: registry deletion itself is idempotent — deregistering an
absent id leaves the registry unchanged and raises no error — but every
cleanup invocation unconditionally broadcasts a presence event with the
post-deletion registry size, so a double disconnect of the same connection
emits a second (identical-count) presence event. -/
theorem cleanup_idempotent_delete_always_announces (st : ServerState) (cid : String) :
    (step st (.disconnect cid)).err = none
    ∧ (step st (.disconnect cid)).state.store = st.store
    ∧ (step st (.disconnect cid)).state.connections = deleteConn st.connections cid
    ∧ (step st (.disconnect cid)).sends
        = registerPresenceSends (deleteConn st.connections cid)
    ∧ deleteConn (deleteConn st.connections cid) cid = deleteConn st.connections cid := by
  refine ⟨rfl, rfl, rfl, rfl, ?_⟩
  unfold deleteConn
  induction st.connections with
  | nil => rfl
  | cons c rest ih =>
      by_cases h : c.id = cid
      · simp [List.filter_cons, h, ih]
      · simp [List.filter_cons, h, ih]

/-- C6 (code bug): an inbound frame whose text is the five characters
`null` parses successfully to the JSON value `null`, and the handler then
throws a `TypeError` at `data.type` instead of silently discarding — the
store is unchanged and nothing is broadcast, but the inbound handler does
throw, contradicting the claim. -/
theorem inbound_null_payload_throws :
    step ⟨[⟨"a"⟩], emptyStore⟩ (.inbound .nullPayload "i" "n")
      = ⟨⟨[⟨"a"⟩], emptyStore⟩, [], [], some "TypeError"⟩ := rfl

/-- C7: every accepted inbound chat message is, after being appended to the
store, broadcast as a message event to all registered connections — the
recipient list is exactly the registry, with no exclude id, so a registered
sender is among the recipients. -/
theorem message_broadcast_to_all (st : ServerState) (m : ClientMessage)
    (i n t : String) (h1 : m.mtype = some "message") (h2 : m.mtext = some t)
    (h3 : trimStr t ≠ "") :
    (step st (.inbound (.payload m) i n)).sends
      = broadcastSends st.connections (.message (mkChatMessage m i n)) := by
  have hget : m.mtext.getD "" = t := by rw [h2]; rfl
  show (handleMessage st (.payload m) i n).sends = _
  simp only [handleMessage]
  have hne : ¬(m.mtype ≠ some "message" ∨ m.mtext.getD "" = "") := by
    push_neg
    refine ⟨by simp [h1], ?_⟩
    rw [hget]
    intro he
    apply h3
    rw [he]
    decide
  rw [if_neg hne, if_neg (by rw [hget]; exact h3)]

/-- Witness for C7: two registered connections, an accepted message with
surrounding whitespace; the broadcast goes to both. -/
theorem message_broadcast_to_all_witness :
    (step ⟨[⟨"a"⟩, ⟨"b"⟩], emptyStore⟩
        (.inbound (.payload ⟨some "message", some " hi ", none, none⟩) "m1" "t1")).sends
      = broadcastSends [⟨"a"⟩, ⟨"b"⟩]
          (.message (mkChatMessage ⟨some "message", some " hi ", none, none⟩ "m1" "t1")) :=
  message_broadcast_to_all ⟨[⟨"a"⟩, ⟨"b"⟩], emptyStore⟩
    ⟨some "message", some " hi ", none, none⟩ "m1" "t1" " hi " rfl rfl
    (by decide)

/-- C8: an accepted inbound chat message is appended and broadcast, and the
constructed `ChatMessage` has text equal to the inbound text trimmed then
truncated to 480 characters, alias equal to the inbound alias truncated to
48 characters with fallback `Anonymous` when absent or empty, color equal
to the inbound color truncated to 64 characters with the fixed default
fallback when absent or empty, the freshly generated id and the
server-assigned timestamp. -/
theorem accepted_message_normalized (st : ServerState) (m : ClientMessage)
    (i n t : String) (h1 : m.mtype = some "message") (h2 : m.mtext = some t)
    (h3 : trimStr t ≠ "") :
    step st (.inbound (.payload m) i n)
      = ⟨⟨st.connections, appendMessage st.store (mkChatMessage m i n)⟩,
          broadcastSends st.connections (.message (mkChatMessage m i n)), [], none⟩
    ∧ (mkChatMessage m i n).text = sliceStr (trimStr t) 480
    ∧ (mkChatMessage m i n).aliasName
        = (if m.malias.getD "" = "" then "Anonymous"
           else sliceStr (m.malias.getD "") 48)
    ∧ (mkChatMessage m i n).color
        = (if m.mcolor.getD "" = "" then "bg-slate-100 text-slate-900"
           else sliceStr (m.mcolor.getD "") 64)
    ∧ (mkChatMessage m i n).id = i
    ∧ (mkChatMessage m i n).sentAt = n := by
  have hget : m.mtext.getD "" = t := by rw [h2]; rfl
  refine ⟨?_, ?_, ?_, ?_, rfl, rfl⟩
  · show handleMessage st (.payload m) i n = _
    simp only [handleMessage]
    have hne : ¬(m.mtype ≠ some "message" ∨ m.mtext.getD "" = "") := by
      push_neg
      refine ⟨by simp [h1], ?_⟩
      rw [hget]
      intro he
      apply h3
      rw [he]
      decide
    rw [if_neg hne, if_neg (by rw [hget]; exact h3)]
  · show sliceStr (trimStr (m.mtext.getD "")) 480 = sliceStr (trimStr t) 480
    rw [hget]
  · show (match m.malias with
        | some a => if sliceStr a 48 = "" then "Anonymous" else sliceStr a 48
        | none => "Anonymous") = _
    cases hma : m.malias with
    | none => rfl
    | some a =>
        by_cases ha : a = ""
        · subst ha
          rfl
        · simp only [Option.getD_some]
          rw [if_neg (sliceStr_ne_empty a 48 ha (by omega)), if_neg ha]
  · show (match m.mcolor with
        | some c => if sliceStr c 64 = "" then "bg-slate-100 text-slate-900"
                    else sliceStr c 64
        | none => "bg-slate-100 text-slate-900") = _
    cases hmc : m.mcolor with
    | none => rfl
    | some c =>
        by_cases hc : c = ""
        · subst hc
          rfl
        · simp only [Option.getD_some]
          rw [if_neg (sliceStr_ne_empty c 64 hc (by omega)), if_neg hc]

/-- Witness for C8: a message whose alias is present but empty (falls back
to `Anonymous`) and whose color is present and kept. -/
theorem accepted_message_normalized_witness :
    step ⟨[⟨"a"⟩], emptyStore⟩
        (.inbound (.payload ⟨some "message", some " hello ", some "", some "purple"⟩)
          "m1" "t1")
      = ⟨⟨[⟨"a"⟩], appendMessage emptyStore
            (mkChatMessage ⟨some "message", some " hello ", some "", some "purple"⟩
              "m1" "t1")⟩,
          broadcastSends [⟨"a"⟩]
            (.message (mkChatMessage
              ⟨some "message", some " hello ", some "", some "purple"⟩ "m1" "t1")),
          [], none⟩
    ∧ (mkChatMessage ⟨some "message", some " hello ", some "", some "purple"⟩
        "m1" "t1").text = sliceStr (trimStr " hello ") 480
    ∧ (mkChatMessage ⟨some "message", some " hello ", some "", some "purple"⟩
        "m1" "t1").aliasName
        = (if (some "" : Option String).getD "" = "" then "Anonymous"
           else sliceStr ((some "" : Option String).getD "") 48)
    ∧ (mkChatMessage ⟨some "message", some " hello ", some "", some "purple"⟩
        "m1" "t1").color
        = (if (some "purple" : Option String).getD "" = ""
           then "bg-slate-100 text-slate-900"
           else sliceStr ((some "purple" : Option String).getD "") 64)
    ∧ (mkChatMessage ⟨some "message", some " hello ", some "", some "purple"⟩
        "m1" "t1").id = "m1"
    ∧ (mkChatMessage ⟨some "message", some " hello ", some "", some "purple"⟩
        "m1" "t1").sentAt = "t1" :=
  accepted_message_normalized ⟨[⟨"a"⟩], emptyStore⟩
    ⟨some "message", some " hello ", some "", some "purple"⟩ "m1" "t1" " hello "
    rfl rfl (by decide)

/-- C9: a store snapshot is immutable once taken: the array the `history`
binding points at when a snapshot is handed out (as in the history event
sent on connect) is never mutated by later appends — after any sequence of
appends, dereferencing the old array still yields exactly the messages it
held at snapshot time. -/
theorem snapshot_immutable (s : Store) (msgs : List ChatMessage)
    (h : s.historyRef < s.arrays.length) :
    (msgs.foldl appendMessage s).deref s.historyRef = currentHistory s :=
  deref_foldl_frozen msgs s s.historyRef h

/-- Witness for C9: after one append the snapshot array is ref 1; a further
append leaves its contents unchanged. -/
theorem snapshot_immutable_witness :
    (appendMessage emptyStore ⟨"1", "a", "n", "c", "t"⟩).historyRef
        < (appendMessage emptyStore ⟨"1", "a", "n", "c", "t"⟩).arrays.length
    ∧ (([⟨"2", "b", "n", "c", "t"⟩] : List ChatMessage).foldl appendMessage
          (appendMessage emptyStore ⟨"1", "a", "n", "c", "t"⟩)).deref
        (appendMessage emptyStore ⟨"1", "a", "n", "c", "t"⟩).historyRef
      = currentHistory (appendMessage emptyStore ⟨"1", "a", "n", "c", "t"⟩) :=
  ⟨by decide,
    snapshot_immutable (appendMessage emptyStore ⟨"1", "a", "n", "c", "t"⟩)
      [⟨"2", "b", "n", "c", "t"⟩] (by decide)⟩

/-- C10: every payload the server sends to any client in any handler
invocation is one of the three envelopes, i.e. its type field is exactly
`history`, `message` or `presence`. -/
theorem server_emits_known_event_types (st : ServerState) (inp : Input) :
    ((step st inp).sends).all (fun s => goodType s.event) = true := by
  have hg : ∀ e, goodType e = true := by
    intro e
    cases e <;> rfl
  simp only [List.all_eq_true]
  intro s _
  exact hg s.event

end ChatRoute
